import Mathlib

/-!
Verification of the katulong MCP host core (`src-tauri/src/mcp_server.rs`).

The development shallow-embeds the Rust code:

* `serde_json::Value` becomes the inductive `Value` below;
* the two `DashMap<String, Value>` registries become association lists
  with unique keys (`Registry`), with `DashMap::insert` modelled by
  `Registry.insert` (overwrite of the existing binding) and iteration
  (`iter().map(|e| e.value().clone())`) by `Registry.list`;
* `McpHost::handle_mcp_request` becomes `handle_mcp_request`, returning
  the response together with the post-call contents of the two
  registries it received by reference;
* the per-connection reader loop of `McpHost::handle_connection`
  becomes the step function `session_step` and its iteration
  `session_run`, with the `clients : DashMap<ClientId, UnboundedSender>`
  connection set modelled as an association list from client id to the
  list of messages pushed into that client's outbound channel.
-/

set_option autoImplicit false

namespace Katulong

/-- Shallow embedding of `serde_json::Value`. Numbers are embedded as
integers; none of the values the host builds uses a non-integer number. -/
inductive Value where
  | null : Value
  | bool (b : Bool) : Value
  | num (n : Int) : Value
  | str (s : String) : Value
  | arr (items : List Value) : Value
  | obj (fields : List (String × Value)) : Value

/-- The registries `DashMap<String, Value>` modelled as an association list.  The real
map has unique keys; theorems that need this carry a `Nodup` hypothesis
on the key list. -/
abbrev Registry : Type := List (String × Value)

/-- `DashMap::insert`: overwrite the binding of an existing key, append
a fresh binding otherwise. -/
def Registry.insert : Registry → String → Value → Registry
  | [], k, v => [(k, v)]
  | (k', v') :: rest, k, v =>
    if k' = k then (k, v) :: rest else (k', v') :: Registry.insert rest k v

/-- Listing, `iter().map(|entry| entry.value().clone()).collect()`: the
sequence of stored values. -/
def Registry.list (r : Registry) : List Value :=
  r.map Prod.snd

/-- Association lookup, `DashMap::get`. -/
def Registry.find : Registry → String → Option Value
  | [], _ => none
  | (k', v') :: rest, k => if k' = k then some v' else Registry.find rest k

/-- The key list of a registry. -/
def Registry.keys (r : Registry) : List String :=
  r.map Prod.fst

/-- Field lookup on a JSON object (`v["key"]` on the serde side);
`none` on non-objects and absent keys. -/
def Value.getField : Value → String → Option Value
  | .obj fields, k => Registry.find fields k
  | _, _ => none

/-- Embedding of `struct McpRequest`, fields id, method, params. -/
structure McpRequest where
  id : Option Value
  method : String
  params : Option Value

/-- Embedding of `struct McpError`, fields code, message, data. -/
structure McpError where
  code : Int
  message : String
  data : Option Value

/-- Embedding of `struct McpResponse`, fields id, result, error. -/
structure McpResponse where
  id : Option Value
  result : Option Value
  error : Option McpError

/-- The constant result built by the `"initialize"` arm of
`handle_mcp_request` (the `serde_json::json!` literal). -/
def initResult : Value :=
  .obj
    [("protocolVersion", .str "2024-11-05"),
     ("serverInfo",
       .obj [("name", .str "katulong-mcp-host"), ("version", .str "0.1.0")]),
     ("capabilities",
       .obj
         [("tools", .obj [("listChanged", .bool true)]),
          ("resources", .obj [("listChanged", .bool true)])])]

/-- The constant placeholder result of the `"tools/call"` arm. -/
def toolsCallResult : Value :=
  .obj
    [("content",
       .arr [.obj [("type", .str "text"),
                   ("text", .str "Tool execution not implemented yet")]])]

/-- The constant placeholder result of the `"resources/read"` arm. -/
def resourcesReadResult : Value :=
  .obj
    [("contents",
       .arr [.obj [("uri", .str "example://resource"),
                   ("mimeType", .str "text/plain"),
                   ("text", .str "Resource content not implemented yet")]])]

/-- Embedding of `McpHost::handle_mcp_request`.  The Rust function receives the two
registries by reference and returns only the response; the embedding
also returns the post-call contents of both registries so that theorems
can speak about the (absence of) mutation. -/
def handle_mcp_request (request : McpRequest) (tools resources : Registry) :
    McpResponse × Registry × Registry :=
  match request.method with
  | "initialize" =>
    (⟨request.id, some initResult, none⟩, tools, resources)
  | "tools/list" =>
    (⟨request.id, some (.obj [("tools", .arr (Registry.list tools))]), none⟩,
      tools, resources)
  | "tools/call" =>
    (⟨request.id, some toolsCallResult, none⟩, tools, resources)
  | "resources/list" =>
    (⟨request.id,
       some (.obj [("resources", .arr (Registry.list resources))]), none⟩,
      tools, resources)
  | "resources/read" =>
    (⟨request.id, some resourcesReadResult, none⟩, tools, resources)
  | m =>
    (⟨request.id, none,
       some ⟨-32601, "Method not found: " ++ m, none⟩⟩, tools, resources)

/-- The connection set `clients : DashMap<ClientId, UnboundedSender<Message>>`,
modelled as an association list from client id to the list of messages
pushed into that client's outbound channel so far.  A message on the
channel is a serialized `McpResponse`; the model stores the response
itself. -/
abbrev ClientSet : Type := List (String × List McpResponse)

/-- Sending, `clients.get(&client_id)` followed by `client_tx.send(response)`:
append the response to the queue of the client with the given id, if
present; drop the response otherwise. -/
def ClientSet.send (c : ClientSet) (cid : String) (resp : McpResponse) : ClientSet :=
  c.map fun e => if e.1 = cid then (e.1, e.2 ++ [resp]) else e

/-- Removal, `clients.remove(&client_id)`: delete the entry with the given id. -/
def ClientSet.remove (c : ClientSet) (cid : String) : ClientSet :=
  c.filter fun e => e.1 != cid

/-- Lookup of the queued messages of a client, `clients.get(&id)`. -/
def ClientSet.find : ClientSet → String → Option (List McpResponse)
  | [], _ => none
  | e :: rest, cid => if e.1 = cid then some e.2 else ClientSet.find rest cid

/-- The identifiers of the currently connected sessions. -/
def ClientSet.ids (c : ClientSet) : List String :=
  c.map Prod.fst

/-- The shared state of `McpHost`: the connection set and the two
registries. -/
structure McpHost where
  clients : ClientSet
  tools : Registry
  resources : Registry

/-- Embedding of `McpHost::register_tool`. -/
def McpHost.register_tool (h : McpHost) (name : String) (tool : Value) : McpHost :=
  { h with tools := h.tools.insert name tool }

/-- Embedding of `McpHost::register_resource`. -/
def McpHost.register_resource (h : McpHost) (name : String) (resource : Value) : McpHost :=
  { h with resources := h.resources.insert name resource }

/-- A WebSocket frame as the reader loop of `handle_connection`
distinguishes them: a text frame, a close frame, or any other kind
(binary, ping, pong), which the loop ignores. -/
inductive Frame where
  | text (payload : String) : Frame
  | close : Frame
  | other : Frame

/-- One item produced by `ws_receiver.next()`: either a frame or a
transport error (the `Err` case that `msg?` propagates). -/
inductive InboundItem where
  | frame (f : Frame) : InboundItem
  | ioError : InboundItem

/-- The outcome of one iteration of the reader loop of
`handle_connection`: continue looping, or break out after a close
frame. -/
inductive StepResult where
  | cont (st : McpHost) : StepResult
  | closed (st : McpHost) : StepResult

/-- The host state carried by a `StepResult`. -/
def StepResult.state : StepResult → McpHost
  | .cont st => st
  | .closed st => st

/-- How the reader loop of `handle_connection` terminated:
the inbound stream ended (`next()` returned `None`), the peer sent a
close frame (`break`), or a transport error was propagated by `?`. -/
inductive SessionEnd where
  | streamEnded : SessionEnd
  | closedByPeer : SessionEnd
  | transportError : SessionEnd

/-- One iteration of the reader loop of `handle_connection` on a
decoded frame.  `dec` stands for `serde_json::from_str::<McpRequest>`:
text that decodes is dispatched and the response is pushed onto this
session's channel; text that does not decode is dropped; a close frame
removes this session from the connection set and breaks the loop;
other frame kinds are ignored. -/
def session_step (dec : String → Option McpRequest) (cid : String)
    (st : McpHost) : Frame → StepResult
  | .text payload =>
    match dec payload with
    | some request =>
      let out := handle_mcp_request request st.tools st.resources
      .cont
        { clients := ClientSet.send st.clients cid out.1,
          tools := out.2.1, resources := out.2.2 }
    | none => .cont st
  | .close => .closed { st with clients := ClientSet.remove st.clients cid }
  | .other => .cont st

/-- The reader loop of `handle_connection` over a whole inbound stream:
frames are processed by `session_step`; a transport error aborts the
loop at once (`msg?`), leaving the state as it was. -/
def session_run (dec : String → Option McpRequest) (cid : String)
    (st : McpHost) : List InboundItem → McpHost × SessionEnd
  | [] => (st, .streamEnded)
  | .ioError :: _ => (st, .transportError)
  | .frame f :: rest =>
    match session_step dec cid st f with
    | .cont st' => session_run dec cid st' rest
    | .closed st' => (st', .closedByPeer)


theorem Registry.find_insert_self (r : Registry) (k : String) (v : Value) :
    (Registry.insert r k v).find k = some v := by
  induction r with
  | nil => simp [Registry.insert, Registry.find]
  | cons e rest ih =>
    obtain ⟨k', v'⟩ := e
    by_cases h : k' = k <;> simp [Registry.insert, Registry.find, h, ih]

theorem Registry.mem_insert {r : Registry} {k : String} {v : Value}
    {p : String × Value} (hp : p ∈ Registry.insert r k v) : p = (k, v) ∨ p ∈ r := by
  induction r with
  | nil => simpa [Registry.insert] using hp
  | cons e rest ih =>
    obtain ⟨k', v'⟩ := e
    by_cases h : k' = k
    · simp only [Registry.insert, if_pos h, List.mem_cons] at hp
      rcases hp with hp | hp
      · exact Or.inl hp
      · exact Or.inr (List.mem_cons_of_mem _ hp)
    · simp only [Registry.insert, if_neg h, List.mem_cons] at hp
      rcases hp with hp | hp
      · exact Or.inr (by simp [hp])
      · rcases ih hp with h1 | h1
        · exact Or.inl h1
        · exact Or.inr (List.mem_cons_of_mem _ h1)

theorem Registry.mem_keys_insert {r : Registry} {k a : String} {v : Value}
    (ha : a ∈ (Registry.insert r k v).keys) : a = k ∨ a ∈ r.keys := by
  induction r with
  | nil => simpa [Registry.insert, Registry.keys] using ha
  | cons e rest ih =>
    obtain ⟨k', v'⟩ := e
    by_cases h : k' = k
    · simp only [Registry.insert, if_pos h, Registry.keys, List.map_cons,
        List.mem_cons] at ha ⊢
      rcases ha with ha | ha
      · exact Or.inl ha
      · exact Or.inr (Or.inr ha)
    · simp only [Registry.insert, if_neg h, Registry.keys, List.map_cons,
        List.mem_cons] at ha ⊢
      rcases ha with ha | ha
      · exact Or.inr (Or.inl ha)
      · rcases ih (by simpa [Registry.keys] using ha) with h1 | h1
        · exact Or.inl h1
        · exact Or.inr (Or.inr (by simpa [Registry.keys] using h1))

theorem Registry.keys_insert_nodup {r : Registry} {k : String} {v : Value}
    (hr : r.keys.Nodup) : (Registry.insert r k v).keys.Nodup := by
  induction r with
  | nil => simp [Registry.insert, Registry.keys]
  | cons e rest ih =>
    obtain ⟨k', v'⟩ := e
    by_cases h : k' = k
    · subst h
      have heq : Registry.insert ((k', v') :: rest) k' v = (k', v) :: rest := by
        simp [Registry.insert]
      rw [heq]
      simpa [Registry.keys] using hr
    · have heq : Registry.insert ((k', v') :: rest) k v =
          (k', v') :: Registry.insert rest k v := by
        simp [Registry.insert, h]
      rw [heq]
      simp only [Registry.keys, List.map_cons, List.nodup_cons] at hr ⊢
      refine ⟨?_, ih hr.2⟩
      intro hk
      rcases Registry.mem_keys_insert (by simpa [Registry.keys] using hk) with h1 | h1
      · exact h h1
      · exact hr.1 (by simpa [Registry.keys] using h1)

theorem Registry.find_eq_of_mem {r : Registry} {k : String} {w : Value}
    (hr : r.keys.Nodup) (hm : (k, w) ∈ r) : r.find k = some w := by
  induction r with
  | nil => simp at hm
  | cons e rest ih =>
    obtain ⟨k', v'⟩ := e
    simp only [Registry.keys, List.map_cons, List.nodup_cons] at hr
    rcases List.mem_cons.mp hm with hm | hm
    · injection hm with h1 h2
      subst h1
      subst h2
      simp [Registry.find]
    · by_cases h : k' = k
      · subst h
        exact absurd (by simpa [Registry.keys] using
          List.mem_map_of_mem Prod.fst hm) hr.1
      · simp only [Registry.find, if_neg h]
        exact ih hr.2 hm

theorem ClientSet.find_remove_self (c : ClientSet) (cid : String) :
    (ClientSet.remove c cid).find cid = none := by
  induction c with
  | nil => rfl
  | cons e rest ih =>
    by_cases h : e.1 = cid
    · simpa [ClientSet.remove, List.filter_cons, h] using ih
    · simpa [ClientSet.remove, ClientSet.find, List.filter_cons, h] using ih

theorem ClientSet.find_remove_ne {c : ClientSet} {k cid : String}
    (h : k ≠ cid) : (ClientSet.remove c cid).find k = c.find k := by
  induction c with
  | nil => rfl
  | cons e rest ih =>
    by_cases he : e.1 = cid
    · simpa [ClientSet.remove, ClientSet.find, List.filter_cons, he, Ne.symm h] using ih
    · by_cases hek : e.1 = k
      · simp [ClientSet.remove, ClientSet.find, List.filter_cons, he, hek, h]
      · simpa [ClientSet.remove, ClientSet.find, List.filter_cons, he, hek] using ih

theorem ClientSet.ids_send (c : ClientSet) (cid : String) (resp : McpResponse) :
    (ClientSet.send c cid resp).ids = c.ids := by
  induction c with
  | nil => rfl
  | cons e rest ih =>
    by_cases h : e.1 = cid <;>
      simp only [ClientSet.send, ClientSet.ids, List.map_cons, if_pos, if_neg, h,
        ite_true, ite_false, List.map_map] at ih ⊢ <;>
      simp [ih]

/-- Claim C1: for every request and any registry contents the dispatcher's
response has exactly one of `result` and `error` set: either `result` is
`some` and `error` is `none`, or `result` is `none` and `error` is `some`. -/
theorem C1_result_error_exclusive (request : McpRequest) (tools resources : Registry) :
    (∃ v, (handle_mcp_request request tools resources).1.result = some v ∧
      (handle_mcp_request request tools resources).1.error = none) ∨
    ((handle_mcp_request request tools resources).1.result = none ∧
      ∃ e, (handle_mcp_request request tools resources).1.error = some e) := by
  unfold handle_mcp_request
  split <;> simp

/-- Claim C2: dispatching any method other than the five recognized ones
yields a response with `result = none`, an error with code `-32601` whose
message contains the method name, and the request id echoed. -/
theorem C2_unknown_method (i p : Option Value) (m : String) (tools resources : Registry)
    (h1 : m ≠ "initialize") (h2 : m ≠ "tools/list") (h3 : m ≠ "tools/call")
    (h4 : m ≠ "resources/list") (h5 : m ≠ "resources/read") :
    (handle_mcp_request ⟨i, m, p⟩ tools resources).1.id = i ∧
    (handle_mcp_request ⟨i, m, p⟩ tools resources).1.result = none ∧
    ∃ e, (handle_mcp_request ⟨i, m, p⟩ tools resources).1.error = some e ∧
      e.code = -32601 ∧ ∃ s1 s2, e.message = s1 ++ m ++ s2 := by
  unfold handle_mcp_request
  split <;> simp_all
  exact ⟨"Method not found: ", "", by simp⟩

/-- Claim C2 witness at method `"unknown/method"`, id `"x"`, empty registries. -/
theorem C2_unknown_method_witness :
    (handle_mcp_request ⟨some (.str "x"), "unknown/method", none⟩ [] []).1.id =
      some (.str "x") ∧
    (handle_mcp_request ⟨some (.str "x"), "unknown/method", none⟩ [] []).1.result = none ∧
    ∃ e, (handle_mcp_request ⟨some (.str "x"), "unknown/method", none⟩ [] []).1.error =
        some e ∧
      e.code = -32601 ∧ ∃ s1 s2, e.message = s1 ++ "unknown/method" ++ s2 :=
  C2_unknown_method (some (.str "x")) none "unknown/method" [] []
    (by decide) (by decide) (by decide) (by decide) (by decide)

/-- Claim C3: `initialize` returns no error and the fixed descriptor with
`serverInfo.name = "katulong-mcp-host"`, `protocolVersion = "2024-11-05"`
and `listChanged = true` capabilities for tools and resources, independent
of the registries and without modifying them. -/
theorem C3_init_descriptor (i p : Option Value) (tools resources : Registry) :
    handle_mcp_request ⟨i, "initialize", p⟩ tools resources =
      (⟨i, some initResult, none⟩, tools, resources) ∧
    ((initResult.getField "serverInfo").bind fun v => v.getField "name") =
      some (.str "katulong-mcp-host") ∧
    initResult.getField "protocolVersion" = some (.str "2024-11-05") ∧
    (((initResult.getField "capabilities").bind fun v =>
        v.getField "tools").bind fun v => v.getField "listChanged") =
      some (.bool true) ∧
    (((initResult.getField "capabilities").bind fun v =>
        v.getField "resources").bind fun v => v.getField "listChanged") =
      some (.bool true) :=
  ⟨rfl, rfl, rfl, rfl, rfl⟩

/-- Claim C4: every branch of the dispatcher echoes the request id,
including an absent id. -/
theorem C4_id_echoed (request : McpRequest) (tools resources : Registry) :
    (handle_mcp_request request tools resources).1.id = request.id := by
  unfold handle_mcp_request
  split <;> rfl

/-- Claim C5: registering twice under the same name overwrites: after
`put(n, v1); put(n, v2)` the value stored under `n` is `v2`, and `v1`
appears among the listed values only if it equals `v2` or is stored under
some other key. -/
theorem C5_put_overwrites (r : Registry) (n : String) (v1 v2 : Value)
    (hnd : r.keys.Nodup) :
    ((Registry.insert (Registry.insert r n v1) n v2).find n = some v2) ∧
    (v1 ∈ (Registry.insert (Registry.insert r n v1) n v2).list →
      v1 = v2 ∨ ∃ k, k ≠ n ∧ (k, v1) ∈ Registry.insert (Registry.insert r n v1) n v2) := by
  constructor
  · exact Registry.find_insert_self _ _ _
  · intro hv
    simp only [Registry.list] at hv
    obtain ⟨⟨k, w⟩, hmem, hw⟩ := List.mem_map.mp hv
    subst hw
    by_cases hk : k = n
    · subst hk
      have hfind := Registry.find_eq_of_mem
        (Registry.keys_insert_nodup (Registry.keys_insert_nodup hnd)) hmem
      rw [Registry.find_insert_self] at hfind
      exact Or.inl (Option.some.inj hfind).symm
    · exact Or.inr ⟨k, hk, hmem⟩

/-- Claim C5 witness on the empty registry with name `"n"`. -/
theorem C5_put_overwrites_witness :
    (Registry.keys ([] : Registry)).Nodup ∧
    (Registry.insert (Registry.insert ([] : Registry) "n" (.str "a")) "n"
      (.str "b")).find "n" = some (.str "b") :=
  ⟨List.nodup_nil,
    (C5_put_overwrites [] "n" (.str "a") (.str "b") List.nodup_nil).1⟩

/-- Claim C6: `tools/list` wraps exactly the registry's stored values,
verbatim, under a `tools` key; the empty registry lists nothing, and after
registering `{"name":"toolsA"}` under `"toolsA"` that value is listed. -/
theorem C6_tools_list_contents (i p : Option Value) (tools resources : Registry) :
    ((handle_mcp_request ⟨i, "tools/list", p⟩ tools resources).1 =
      ⟨i, some (.obj [("tools", .arr tools.list)]), none⟩) ∧
    (Registry.list [] = []) ∧
    ((Value.obj [("name", .str "toolsA")]) ∈
      (Registry.insert [] "toolsA" (.obj [("name", .str "toolsA")])).list) := by
  refine ⟨rfl, rfl, ?_⟩
  simp [Registry.insert, Registry.list]

/-- Claim C7 counterexample: a session that ends with a transport error
keeps its entry in the connection set — with one client `"c"` whose stream
yields a transport error, the run ends with `transportError` yet lookup of
`"c"` still succeeds. -/
theorem C7_counterexample_transport_error_leaks :
    ((session_run (fun _ => none) "c" ⟨[("c", [])], [], []⟩ [.ioError]).2 =
      SessionEnd.transportError) ∧
    (ClientSet.find
      (session_run (fun _ => none) "c" ⟨[("c", [])], [], []⟩ [.ioError]).1.clients
      "c" = some []) ∧
    ¬ (ClientSet.find
      (session_run (fun _ => none) "c" ⟨[("c", [])], [], []⟩ [.ioError]).1.clients
      "c" = none) :=
  ⟨rfl, rfl, fun hcontra => Option.noConfusion hcontra⟩

/-- Claim C7 (amended): a session that ends because its peer sent a close
frame has its entry removed from the connection set, so lookup by its
identity fails; a fatal transport error does not remove the entry. -/
theorem C7_close_removes_entry (dec : String → Option McpRequest) (cid : String)
    (st : McpHost) (inbound : List InboundItem)
    (hend : (session_run dec cid st inbound).2 = SessionEnd.closedByPeer) :
    ClientSet.find (session_run dec cid st inbound).1.clients cid = none := by
  induction inbound generalizing st with
  | nil => simp [session_run] at hend
  | cons item rest ih =>
    cases item with
    | ioError => simp [session_run] at hend
    | frame f =>
      cases f with
      | text payload =>
        cases hdec : dec payload with
        | some req =>
          simp only [session_run, session_step, hdec] at hend ⊢
          exact ih _ hend
        | none =>
          simp only [session_run, session_step, hdec] at hend ⊢
          exact ih _ hend
      | close =>
        simp only [session_run, session_step] at hend ⊢
        exact ClientSet.find_remove_self _ _
      | other =>
        simp only [session_run, session_step] at hend ⊢
        exact ih _ hend

/-- Claim C7 witness: one client `"c"`, inbound stream consisting of a
close frame; the run ends `closedByPeer` and lookup of `"c"` fails. -/
theorem C7_close_removes_entry_witness :
    ClientSet.find (session_run (fun _ => none) "c" ⟨[("c", [])], [], []⟩
      [.frame .close]).1.clients "c" = none :=
  C7_close_removes_entry (fun _ => none) "c" ⟨[("c", [])], [], []⟩
    [.frame .close] rfl

/-- Claim C8: a text frame whose payload does not decode causes no
outbound response and no state change, the session stays open and the rest
of the stream is processed as if the frame had not been there; moreover no
step other than a successfully decoded text frame ever grows any client's
outbound queue. -/
theorem C8_malformed_frame_dropped (dec : String → Option McpRequest) (cid : String)
    (st : McpHost) (payload : String) (hdec : dec payload = none) :
    (session_step dec cid st (.text payload) = .cont st) ∧
    (∀ rest : List InboundItem,
      session_run dec cid st (.frame (.text payload) :: rest) =
        session_run dec cid st rest) ∧
    (∀ f : Frame, (∀ t, f = Frame.text t → dec t = none) →
      ∀ k q, ClientSet.find (session_step dec cid st f).state.clients k = some q →
        ClientSet.find st.clients k = some q) := by
  refine ⟨by simp [session_step, hdec], ?_, ?_⟩
  · intro rest
    simp [session_run, session_step, hdec]
  · intro f hf k q hq
    cases f with
    | text t =>
      have ht := hf t rfl
      simpa [session_step, ht, StepResult.state] using hq
    | close =>
      simp only [session_step, StepResult.state] at hq
      by_cases hk : k = cid
      · subst hk
        rw [ClientSet.find_remove_self] at hq
        exact absurd hq (by simp)
      · rwa [ClientSet.find_remove_ne hk] at hq
    | other =>
      simpa [session_step, StepResult.state] using hq

/-- Claim C8 witness: the always-failing decoder on payload `"not json"`
with no connected clients. -/
theorem C8_malformed_frame_dropped_witness :
    (session_step (fun _ => none) "c" ⟨[], [], []⟩ (.text "not json") =
      .cont ⟨[], [], []⟩) ∧
    (∀ rest : List InboundItem,
      session_run (fun _ => none) "c" ⟨[], [], []⟩
          (.frame (.text "not json") :: rest) =
        session_run (fun _ => none) "c" ⟨[], [], []⟩ rest) ∧
    (∀ f : Frame, (∀ t, f = Frame.text t → (fun _ => none : String → Option McpRequest) t = none) →
      ∀ k q, ClientSet.find (session_step (fun _ => none) "c" ⟨[], [], []⟩ f).state.clients
          k = some q →
        ClientSet.find (McpHost.clients ⟨[], [], []⟩) k = some q) :=
  C8_malformed_frame_dropped (fun _ => none) "c" ⟨[], [], []⟩ "not json" rfl

/-- Claim C9: the dispatcher is read-only — it returns both registries
unchanged, and a session step on a text frame keeps the tools registry,
the resources registry and the set of connected client ids unchanged. -/
theorem C9_dispatch_readonly :
    (∀ (request : McpRequest) (tools resources : Registry),
      (handle_mcp_request request tools resources).2 = (tools, resources)) ∧
    (∀ (dec : String → Option McpRequest) (cid : String) (st : McpHost)
      (payload : String),
      ∃ st', session_step dec cid st (.text payload) = .cont st' ∧
        st'.tools = st.tools ∧ st'.resources = st.resources ∧
        st'.clients.ids = st.clients.ids) := by
  have hro : ∀ (request : McpRequest) (tools resources : Registry),
      (handle_mcp_request request tools resources).2 = (tools, resources) := by
    intro request tools resources
    unfold handle_mcp_request
    split <;> rfl
  refine ⟨hro, ?_⟩
  intro dec cid st payload
  cases hdec : dec payload with
  | some req =>
    refine ⟨{ clients := ClientSet.send st.clients cid
                (handle_mcp_request req st.tools st.resources).1,
              tools := (handle_mcp_request req st.tools st.resources).2.1,
              resources := (handle_mcp_request req st.tools st.resources).2.2 },
      ?_, ?_, ?_, ?_⟩
    · simp [session_step, hdec]
    · rw [hro req st.tools st.resources]
    · rw [hro req st.tools st.resources]
    · exact ClientSet.ids_send _ _ _
  | none => exact ⟨st, by simp [session_step, hdec], rfl, rfl, rfl⟩

/-- Claim C10: `register_tool` changes only the tools registry and
`register_resource` changes only the resources registry; both are total
and leave the connection set untouched. -/
theorem C10_register_isolation (host : McpHost) (n : String) (v : Value) :
    ((host.register_tool n v).resources = host.resources) ∧
    ((host.register_tool n v).clients = host.clients) ∧
    ((host.register_tool n v).tools = Registry.insert host.tools n v) ∧
    ((host.register_resource n v).tools = host.tools) ∧
    ((host.register_resource n v).clients = host.clients) ∧
    ((host.register_resource n v).resources = Registry.insert host.resources n v) :=
  ⟨rfl, rfl, rfl, rfl, rfl, rfl⟩

end Katulong
